import Mathlib

/-! Verification of the B.R.I.C. robot-arm firmware: the joint calibration
model (pulse to angle), the forward-kinematics solvers, the serial command
interpreter with its clamping invariant, the magnet controllers, and the
sequence-playback safety gate. Definitions are shallow embeddings of the
Arduino sources; mutable globals (`currentPulses`, `TRIMS`, magnet pin
levels, the trace of actuator writes) are passed as explicit state. Float
arithmetic is modelled over the reals. -/

open Real

/-! ## Arduino `String` model (over `List Char`) -/

/-- Whitespace characters removed by Arduino `String::trim` (C `isspace`). -/
def isSpaceCh (c : Char) : Bool :=
  c = ' ' || c = '\t' || c = '\n' || c = '\x0b' || c = '\x0c' || c = '\r'

/-- Arduino `String::trim`: strip leading and trailing whitespace. -/
def strTrim (s : List Char) : List Char :=
  ((s.dropWhile isSpaceCh).reverse.dropWhile isSpaceCh).reverse

/-- ASCII `tolower` applied by Arduino `String::toLowerCase` to each char. -/
def asciiToLower (c : Char) : Char :=
  if 'A' ≤ c && c ≤ 'Z' then Char.ofNat (c.toNat + 32) else c

/-- Arduino `String::toLowerCase`. -/
def strToLower (s : List Char) : List Char := s.map asciiToLower

/-- Value of a string of decimal digits. -/
def digitsToNat (s : List Char) : ℕ :=
  s.foldl (fun a c => a * 10 + (c.toNat - 48)) 0

/-- Arduino `String::toInt` (C `atol`): skip whitespace, optional sign,
take leading digits; 0 when there are none. -/
def toIntM (s : List Char) : ℤ :=
  match s.dropWhile isSpaceCh with
  | '-' :: r => -((digitsToNat (r.takeWhile Char.isDigit) : ℤ))
  | '+' :: r => ((digitsToNat (r.takeWhile Char.isDigit) : ℤ))
  | r => ((digitsToNat (r.takeWhile Char.isDigit) : ℤ))

/-- Arduino `String::substring(left, right)`: the characters in
`[left, right)`; the bounds are swapped when out of order and clamped to
the length. -/
def substringM (s : List Char) (left right : ℕ) : List Char :=
  let lo := min left right
  let hi := max left right
  (s.drop lo).take (hi - lo)

/-! ## Joint calibration model (`getAngleRad`) -/

def PULSE_MIN : ℤ := 500
def PULSE_MAX : ℤ := 2500
def NEUTRAL : ℤ := 1500

/-- The configured per-joint trims of the trimmed firmware (J2 is -50). -/
def TRIMS : Fin 4 → ℤ := ![0, -50, 0, 0]

/-- Extended-range (270-degree) servo scale: `(1.5 * PI) / 2000.0`. -/
noncomputable def SCALE_270 : ℝ := (1.5 * π) / 2000

/-- Standard-range (180-degree) servo scale: `(1.0 * PI) / 2000.0`. -/
noncomputable def SCALE_180 : ℝ := (1.0 * π) / 2000

/-- Measured TD-8120MG scale of the calibrated firmware:
`(PI / 2.0) / 620.0`. -/
noncomputable def SCALE_TD8120 : ℝ := (π / 2) / 620

/-- MG90S scale of the calibrated firmware: `PI / 2000.0`. -/
noncomputable def SCALE_MG90S : ℝ := π / 2000

/-- `getAngleRad` of the trimmed 270/180-scale firmware: trims shift the
neutral point, joints 1-3 use the extended-range scale, joint 4 the
180-degree scale, and joint 3 (index 2) is direction-inverted. -/
noncomputable def getAngleRad (trims currentPulses : Fin 4 → ℤ) (index : Fin 4) : ℝ :=
  let centerPoint : ℤ := NEUTRAL + trims index
  let deltaPulse : ℤ := currentPulses index - centerPoint
  let angle : ℝ :=
    if index = 3 then (deltaPulse : ℝ) * SCALE_180 else (deltaPulse : ℝ) * SCALE_270
  if index = 2 then -angle else angle

/-- `getAngleRad` of the calibrated-scales (Y-forward frame) firmware; same
shape with the measured TD-8120MG/MG90S scales. -/
noncomputable def getAngleRadV3 (trims currentPulses : Fin 4 → ℤ) (index : Fin 4) : ℝ :=
  let centerPoint : ℤ := NEUTRAL + trims index
  let deltaPulse : ℤ := currentPulses index - centerPoint
  let angle : ℝ :=
    if index = 3 then (deltaPulse : ℝ) * SCALE_MG90S else (deltaPulse : ℝ) * SCALE_TD8120
  if index = 2 then -angle else angle

/-- The spec's per-joint direction sign: -1 for joint 3 (index 2), +1
otherwise. -/
def directionSign (index : Fin 4) : ℝ := if index = 2 then -1 else 1

/-- The spec's per-joint scale constant for the 270/180 firmware. -/
noncomputable def jointScale (index : Fin 4) : ℝ :=
  if index = 3 then SCALE_180 else SCALE_270

/-- The spec's per-joint scale constant for the calibrated firmware. -/
noncomputable def jointScaleV3 (index : Fin 4) : ℝ :=
  if index = 3 then SCALE_MG90S else SCALE_TD8120

/-- C1: for every joint and every in-range pulse, the computed angle is
`directionSign * (currentPulse - (neutralPulse + trimOffset)) * scale`,
with neutral 1500, the 180-degree scale on joint 4 and the extended-range
scale on joints 1-3, and the direction sign -1 exactly on joint 3; this
holds in both the 270/180-scale and the calibrated-scales firmware. -/
theorem getAngleRad_affine_formula (trims pulses : Fin 4 → ℤ) (i : Fin 4)
    (h : PULSE_MIN ≤ pulses i ∧ pulses i ≤ PULSE_MAX) :
    getAngleRad trims pulses i
        = directionSign i * ((pulses i : ℝ) - ((NEUTRAL : ℝ) + (trims i : ℝ))) * jointScale i
      ∧ getAngleRadV3 trims pulses i
        = directionSign i * ((pulses i : ℝ) - ((NEUTRAL : ℝ) + (trims i : ℝ))) *
            jointScaleV3 i := by
  constructor <;>
    · fin_cases i <;>
        simp only [getAngleRad, getAngleRadV3, directionSign, jointScale, jointScaleV3,
          NEUTRAL, if_true, if_false] <;>
      norm_num <;> push_cast <;> ring

/-- Concrete pulse vector used by the C1 witness. -/
def pulsesW : Fin 4 → ℤ := ![2000, 2000, 2000, 2000]

/-- Witness for C1 at joint 1 and pulse 2000. -/
theorem getAngleRad_affine_formula_witness :
    getAngleRad TRIMS pulsesW 0
        = directionSign 0 * ((pulsesW 0 : ℝ) - ((NEUTRAL : ℝ) + (TRIMS 0 : ℝ))) * jointScale 0
      ∧ getAngleRadV3 TRIMS pulsesW 0
        = directionSign 0 * ((pulsesW 0 : ℝ) - ((NEUTRAL : ℝ) + (TRIMS 0 : ℝ))) *
            jointScaleV3 0 :=
  getAngleRad_affine_formula TRIMS pulsesW 0 (by decide)

/-- A second trim configuration for the C7 witness; differs from `TRIMS`
on joints 2 and 4 but agrees on joint 1. -/
def trimsAlt : Fin 4 → ℤ := ![0, 30, 0, -20]

/-- C7: two trim configurations that agree on joint `i` give joint `i` the
same computed angle whatever the other joints' trims are, in both firmware
versions: one joint's trim never alters another joint's angle. -/
theorem trim_noninterference (trims1 trims2 pulses : Fin 4 → ℤ) (i : Fin 4)
    (h : trims1 i = trims2 i) :
    getAngleRad trims1 pulses i = getAngleRad trims2 pulses i
      ∧ getAngleRadV3 trims1 pulses i = getAngleRadV3 trims2 pulses i := by
  unfold getAngleRad getAngleRadV3
  rw [h]
  exact ⟨rfl, rfl⟩

/-- Witness for C7: `TRIMS` and `trimsAlt` agree on joint 1, so joint 1's
angle is the same under both. -/
theorem trim_noninterference_witness :
    getAngleRad TRIMS pulsesW 0 = getAngleRad trimsAlt pulsesW 0
      ∧ getAngleRadV3 TRIMS pulsesW 0 = getAngleRadV3 trimsAlt pulsesW 0 :=
  trim_noninterference TRIMS trimsAlt pulsesW 0 (by decide)

/-! ## Forward kinematics -/

/-- Base column height (mm), shared by both solvers. -/
noncomputable def H_BASE : ℝ := 62.3

/-- `J2_OFF[1]` of the 270/180 solver (side shift of the shoulder). -/
noncomputable def J2_OFF_SIDE : ℝ := 16.625

/-- `J2_OFF[2]` (height of the shoulder above the base column). -/
noncomputable def J2_OFF_UP : ℝ := 36.276

/-- `J3_OFF[2]` (shoulder-to-elbow link length). -/
noncomputable def J3_OFF_UP : ℝ := 120

/-- `J4_OFF[0]` (forward shift of the wrist bracket). -/
noncomputable def J4_OFF_FWD : ℝ := 11.08

/-- `J4_OFF[2]` (elbow-to-wrist link length). -/
noncomputable def J4_OFF_UP : ℝ := 93.85

/-- `TCP_OFF[1]` (lateral tool offset of the 270/180 solver). -/
noncomputable def TCP_OFF_SIDE : ℝ := 4.9

/-- `TCP_OFF[2]` (tool length). -/
noncomputable def TCP_OFF_UP : ℝ := 45.6

/-- `updateForwardKinematics` of the 270/180-scale firmware (the same tip
math appears in the J3-inversion firmware and the corrected-range sketch):
returns `(targetX, targetY, targetZ)` as a function of the four joint
angles; `q4` is computed by that sketch but unused in its position math. -/
noncomputable def updateForwardKinematicsV1 (q1 q2 q3 q4 : ℝ) : ℝ × ℝ × ℝ :=
  let c1 := cos q1
  let s1 := sin q1
  let c2 := cos q2
  let s2 := sin q2
  let c23 := cos (q2 + q3)
  let s23 := sin (q2 + q3)
  let j2x := 0 * c1 - J2_OFF_SIDE * s1
  let j2y := 0 * s1 + J2_OFF_SIDE * c1
  let j2z := H_BASE + J2_OFF_UP
  let j3x := j2x
  let j3y := j2y - J3_OFF_UP * s2 * c1
  let j3z := j2z + J3_OFF_UP * c2
  let j4x := j3x + J4_OFF_FWD * c1
  let j4y := j3y + J4_OFF_FWD * s1 - J4_OFF_UP * s23 * c1
  let j4z := j3z + J4_OFF_UP * c23
  let targetX := j4x - TCP_OFF_SIDE * s1 - TCP_OFF_UP * s23 * s1
  let targetY := j4y + TCP_OFF_SIDE * c1 - TCP_OFF_UP * s23 * c1
  let targetZ := j4z + TCP_OFF_UP * c23
  (targetX, targetY, targetZ)

/-- `SIDE_SHIFT_J2` of the calibrated Y-forward solver. -/
noncomputable def SIDE_SHIFT_J2 : ℝ := 16.625

/-- `HEIGHT_J2` of the calibrated Y-forward solver. -/
noncomputable def HEIGHT_J2 : ℝ := 36.276

/-- `LINK_J2_J3` of the calibrated Y-forward solver. -/
noncomputable def LINK_J2_J3 : ℝ := 120

/-- `FORWARD_SHIFT_J4` of the calibrated Y-forward solver. -/
noncomputable def FORWARD_SHIFT_J4 : ℝ := 11.08

/-- `LINK_J3_J4` of the calibrated Y-forward solver. -/
noncomputable def LINK_J3_J4 : ℝ := 93.85

/-- `SIDE_SHIFT_TOOL` of the calibrated Y-forward solver (corrected sign). -/
noncomputable def SIDE_SHIFT_TOOL : ℝ := -4.9

/-- `LENGTH_TOOL` of the calibrated Y-forward solver. -/
noncomputable def LENGTH_TOOL : ℝ := 45.6

/-- `updateForwardKinematics` of the calibrated Y-forward-frame firmware:
the whole chain is accumulated in the vertical reaching plane
(`r`, `z` coordinates) and the base yaw `q1` is applied last as a world
projection; returns `(finalX, finalY, finalZ)`. -/
noncomputable def updateForwardKinematicsV3 (q1 q2 q3 q4 : ℝ) : ℝ × ℝ × ℝ :=
  let c1 := cos q1
  let s1 := sin q1
  let c23 := cos (q2 + q3)
  let s23 := sin (q2 + q3)
  let rShoulder : ℝ := 0
  let zShoulder := H_BASE + HEIGHT_J2
  let rElbow := rShoulder + LINK_J2_J3 * sin q2
  let zElbow := zShoulder + LINK_J2_J3 * cos q2
  let rWrist := rElbow + FORWARD_SHIFT_J4 * c23 + LINK_J3_J4 * s23
  let zWrist := zElbow - FORWARD_SHIFT_J4 * s23 + LINK_J3_J4 * c23
  let toolSideLocal := SIDE_SHIFT_TOOL
  let toolReachLocal : ℝ := 0
  let toolLen := LENGTH_TOOL
  let toolSideRolled := toolSideLocal * cos q4 - toolReachLocal * sin q4
  let toolReachRolled := toolSideLocal * sin q4 + toolReachLocal * cos q4
  let rTool := rWrist + toolReachRolled * c23 + toolLen * s23
  let zTool := zWrist - toolReachRolled * s23 + toolLen * c23
  let sideTotal := SIDE_SHIFT_J2 + toolSideRolled
  let finalY := rTool * c1 - sideTotal * s1
  let finalX := rTool * s1 + sideTotal * c1
  (finalX, finalY, zTool)

/-- A single 2-D rotation by `θ` of the planar (side/forward) components of
a tip position, in the convention of the calibrated solver's final world
projection; the vertical component is untouched. -/
noncomputable def rotPlanar (θ : ℝ) (p : ℝ × ℝ × ℝ) : ℝ × ℝ × ℝ :=
  (p.1 * cos θ + p.2.1 * sin θ, p.2.1 * cos θ - p.1 * sin θ, p.2.2)

/-- The same rotation with the opposite orientation. -/
noncomputable def rotPlanarRev (θ : ℝ) (p : ℝ × ℝ × ℝ) : ℝ × ℝ × ℝ :=
  (p.1 * cos θ - p.2.1 * sin θ, p.2.1 * cos θ + p.1 * sin θ, p.2.2)

/-- C3 (amended to the calibrated Y-forward solver): for every pulse vector
in the clamped domain, the tool tip equals the tip computed with the base
angle set to zero, transformed by one final 2-D rotation by the base angle
of the planar components, with Z independent of the base angle. -/
theorem base_rotation_applied_last (trims pulses : Fin 4 → ℤ)
    (h : ∀ j, PULSE_MIN ≤ pulses j ∧ pulses j ≤ PULSE_MAX) :
    updateForwardKinematicsV3 (getAngleRadV3 trims pulses 0) (getAngleRadV3 trims pulses 1)
        (getAngleRadV3 trims pulses 2) (getAngleRadV3 trims pulses 3)
      = rotPlanar (getAngleRadV3 trims pulses 0)
          (updateForwardKinematicsV3 0 (getAngleRadV3 trims pulses 1)
            (getAngleRadV3 trims pulses 2) (getAngleRadV3 trims pulses 3)) := by
  simp only [updateForwardKinematicsV3, rotPlanar, Real.cos_zero, Real.sin_zero,
    Prod.mk.injEq]
  refine ⟨by ring, by ring, by ring⟩

/-- The calibrated neutral pulse vector (`NEUTRAL + TRIMS[i]`). -/
def pulsesNeutral : Fin 4 → ℤ := ![1500, 1450, 1500, 1500]

/-- Witness for C3's amended theorem at the neutral pulse vector. -/
theorem base_rotation_applied_last_witness :
    updateForwardKinematicsV3 (getAngleRadV3 TRIMS pulsesNeutral 0)
        (getAngleRadV3 TRIMS pulsesNeutral 1) (getAngleRadV3 TRIMS pulsesNeutral 2)
        (getAngleRadV3 TRIMS pulsesNeutral 3)
      = rotPlanar (getAngleRadV3 TRIMS pulsesNeutral 0)
          (updateForwardKinematicsV3 0 (getAngleRadV3 TRIMS pulsesNeutral 1)
            (getAngleRadV3 TRIMS pulsesNeutral 2) (getAngleRadV3 TRIMS pulsesNeutral 3)) :=
  base_rotation_applied_last TRIMS pulsesNeutral (by decide)

theorem cos_three_pi_div_four : cos (3 * π / 4) = -(Real.sqrt 2 / 2) := by
  rw [show 3 * π / 4 = π - π / 4 by ring, Real.cos_pi_sub, Real.cos_pi_div_four]

theorem sin_three_pi_div_four : sin (3 * π / 4) = Real.sqrt 2 / 2 := by
  rw [show 3 * π / 4 = π - π / 4 by ring, Real.sin_pi_sub, Real.sin_pi_div_four]

/-- The concrete in-range pulse vector refuting C3 for the 270/180 solver:
it realizes the joint angles `(3π/4, 0, 3π/4, 0)`. -/
def cexPulses : Fin 4 → ℤ := ![2500, 1450, 500, 1500]

/-- C3 counterexample: the 270/180 solver (whose tip math the J3-inversion
firmware shares) violates the rotate-last property at the in-range pulse
vector `(2500, 1450, 500, 1500)`, i.e. at joint angles `(3π/4, 0, 3π/4, 0)`:
the planar distance from the axis differs from the base-angle-zero tip's, so
NO 2-D rotation (by any angle) maps one to the other, and both orientations
of the rotation by the base angle are refuted explicitly. -/
theorem base_rotation_counterexample :
    (∀ j, PULSE_MIN ≤ cexPulses j ∧ cexPulses j ≤ PULSE_MAX)
      ∧ getAngleRad TRIMS cexPulses 0 = 3 * π / 4
      ∧ getAngleRad TRIMS cexPulses 1 = 0
      ∧ getAngleRad TRIMS cexPulses 2 = 3 * π / 4
      ∧ getAngleRad TRIMS cexPulses 3 = 0
      ∧ ((updateForwardKinematicsV1 (3 * π / 4) 0 (3 * π / 4) 0).1 ^ 2
            + (updateForwardKinematicsV1 (3 * π / 4) 0 (3 * π / 4) 0).2.1 ^ 2
          ≠ (updateForwardKinematicsV1 0 0 (3 * π / 4) 0).1 ^ 2
            + (updateForwardKinematicsV1 0 0 (3 * π / 4) 0).2.1 ^ 2)
      ∧ updateForwardKinematicsV1 (3 * π / 4) 0 (3 * π / 4) 0
          ≠ rotPlanar (3 * π / 4) (updateForwardKinematicsV1 0 0 (3 * π / 4) 0)
      ∧ updateForwardKinematicsV1 (3 * π / 4) 0 (3 * π / 4) 0
          ≠ rotPlanarRev (3 * π / 4) (updateForwardKinematicsV1 0 0 (3 * π / 4) 0) := by
  have hs2 : Real.sqrt 2 ^ 2 = 2 := Real.sq_sqrt (by norm_num)
  have hnn : (0 : ℝ) ≤ Real.sqrt 2 := Real.sqrt_nonneg 2
  have hub : Real.sqrt 2 < 1.4143 := (Real.sqrt_lt' (by norm_num)).mpr (by norm_num)
  have eQ0 : getAngleRad TRIMS cexPulses 0 = 3 * π / 4 := by
    simp only [getAngleRad, SCALE_270, SCALE_180, NEUTRAL,
      show ((0 : Fin 4) = 2) = False by simp, show ((0 : Fin 4) = 3) = False by simp,
      if_false]
    norm_num [TRIMS, cexPulses]
    ring
  have eQ1 : getAngleRad TRIMS cexPulses 1 = 0 := by
    simp only [getAngleRad, SCALE_270, SCALE_180, NEUTRAL,
      show ((1 : Fin 4) = 2) = False by simp, show ((1 : Fin 4) = 3) = False by simp,
      if_false]
    norm_num [TRIMS, cexPulses]
  have eQ2 : getAngleRad TRIMS cexPulses 2 = 3 * π / 4 := by
    simp only [getAngleRad, SCALE_270, SCALE_180, NEUTRAL,
      show ((2 : Fin 4) = 2) = True by simp, show ((2 : Fin 4) = 3) = False by simp,
      if_false, if_true]
    norm_num [TRIMS, cexPulses]
    ring
  have eQ3 : getAngleRad TRIMS cexPulses 3 = 0 := by
    simp only [getAngleRad, SCALE_270, SCALE_180, NEUTRAL,
      show ((3 : Fin 4) = 2) = False by simp, show ((3 : Fin 4) = 3) = True by simp,
      if_false, if_true]
    norm_num [TRIMS, cexPulses]
  have eX : (updateForwardKinematicsV1 (3 * π / 4) 0 (3 * π / 4) 0).1
      = -(16.3025 * Real.sqrt 2) - 22.8 := by
    simp only [updateForwardKinematicsV1, zero_add, cos_three_pi_div_four,
      sin_three_pi_div_four, Real.cos_zero, Real.sin_zero, H_BASE, J2_OFF_SIDE, J2_OFF_UP,
      J3_OFF_UP, J4_OFF_FWD, J4_OFF_UP, TCP_OFF_SIDE, TCP_OFF_UP]
    linear_combination (-11.4 : ℝ) * hs2
  have eY : (updateForwardKinematicsV1 (3 * π / 4) 0 (3 * π / 4) 0).2.1
      = 69.725 - 5.2225 * Real.sqrt 2 := by
    simp only [updateForwardKinematicsV1, zero_add, cos_three_pi_div_four,
      sin_three_pi_div_four, Real.cos_zero, Real.sin_zero, H_BASE, J2_OFF_SIDE, J2_OFF_UP,
      J3_OFF_UP, J4_OFF_FWD, J4_OFF_UP, TCP_OFF_SIDE, TCP_OFF_UP]
    linear_combination (34.8625 : ℝ) * hs2
  have eX0 : (updateForwardKinematicsV1 0 0 (3 * π / 4) 0).1 = 11.08 := by
    simp only [updateForwardKinematicsV1, zero_add, cos_three_pi_div_four,
      sin_three_pi_div_four, Real.cos_zero, Real.sin_zero, H_BASE, J2_OFF_SIDE, J2_OFF_UP,
      J3_OFF_UP, J4_OFF_FWD, J4_OFF_UP, TCP_OFF_SIDE, TCP_OFF_UP]
    ring
  have eY0 : (updateForwardKinematicsV1 0 0 (3 * π / 4) 0).2.1
      = 21.525 - 69.725 * Real.sqrt 2 := by
    simp only [updateForwardKinematicsV1, zero_add, cos_three_pi_div_four,
      sin_three_pi_div_four, Real.cos_zero, Real.sin_zero, H_BASE, J2_OFF_SIDE, J2_OFF_UP,
      J3_OFF_UP, J4_OFF_FWD, J4_OFF_UP, TCP_OFF_SIDE, TCP_OFF_UP]
    ring
  refine ⟨by decide, eQ0, eQ1, eQ2, eQ3, ?_, ?_, ?_⟩
  · rw [eX, eY, eX0, eY0]
    intro hEq
    nlinarith [hEq, hs2, hub, hnn]
  · intro hEq
    have h1 := congrArg Prod.fst hEq
    simp only [rotPlanar] at h1
    rw [eX, eX0, eY0, cos_three_pi_div_four, sin_three_pi_div_four] at h1
    nlinarith [h1, hs2, hub, hnn]
  · intro hEq
    have h1 := congrArg Prod.fst hEq
    simp only [rotPlanarRev] at h1
    rw [eX, eX0, eY0, cos_three_pi_div_four, sin_three_pi_div_four] at h1
    nlinarith [h1, hs2, hub, hnn]

/-- C9: when every joint's pulse is its calibrated neutral
(`NEUTRAL + trim`), every computed angle is exactly zero and the calibrated
solver returns the one constant reference tip position
`(11.725, 11.08, 358.026)` determined by the link offsets. -/
theorem neutral_pose_reference_position (trims pulses : Fin 4 → ℤ)
    (h : ∀ i, pulses i = NEUTRAL + trims i) :
    (∀ i, getAngleRadV3 trims pulses i = 0)
      ∧ updateForwardKinematicsV3 (getAngleRadV3 trims pulses 0)
          (getAngleRadV3 trims pulses 1) (getAngleRadV3 trims pulses 2)
          (getAngleRadV3 trims pulses 3)
        = (11.725, 11.08, 358.026) := by
  have hq : ∀ i, getAngleRadV3 trims pulses i = 0 := by
    intro i
    simp [getAngleRadV3, h i]
  refine ⟨hq, ?_⟩
  rw [hq 0, hq 1, hq 2, hq 3]
  simp only [updateForwardKinematicsV3, Real.cos_zero, Real.sin_zero, H_BASE, HEIGHT_J2,
    LINK_J2_J3, FORWARD_SHIFT_J4, LINK_J3_J4, SIDE_SHIFT_TOOL, LENGTH_TOOL, SIDE_SHIFT_J2,
    Prod.mk.injEq]
  norm_num

/-- Witness for C9 at the configured trims and their neutral pulse vector. -/
theorem neutral_pose_reference_position_witness :
    (∀ i, getAngleRadV3 TRIMS pulsesNeutral i = 0)
      ∧ updateForwardKinematicsV3 (getAngleRadV3 TRIMS pulsesNeutral 0)
          (getAngleRadV3 TRIMS pulsesNeutral 1) (getAngleRadV3 TRIMS pulsesNeutral 2)
          (getAngleRadV3 TRIMS pulsesNeutral 3)
        = (11.725, 11.08, 358.026) :=
  neutral_pose_reference_position TRIMS pulsesNeutral (by decide)

/-! ## Serial command interpreter of the trimmed 4-servo firmware -/

/-- Controller state: the `currentPulses` global of the firmware plus the
trace of every `writeMicroseconds` call issued (joint index, pulse). -/
structure ArmState where
  currentPulses : Fin 4 → ℤ
  writes : List (Fin 4 × ℤ)

/-- The calibrated neutral `NEUTRAL + TRIMS[i]` each joint is driven to. -/
def neutralPulses : Fin 4 → ℤ := fun i => NEUTRAL + TRIMS i

/-- The state `setup` leaves: every joint stored at and written its
calibrated neutral. -/
def setupState : ArmState :=
  { currentPulses := neutralPulses
    writes := (List.finRange 4).map fun i => (i, neutralPulses i) }

/-- The `set` branch of `loop`: drive every joint to its calibrated
neutral, storing and writing each pulse. -/
def setAllNeutral (s : ArmState) : ArmState :=
  { currentPulses := neutralPulses
    writes := s.writes ++ ((List.finRange 4).map fun i => (i, neutralPulses i)) }

/-- `parseServoCommand` of the trimmed firmware: on `s<N>-<P>` with
`1 ≤ N ≤ numServos` and `PULSE_MIN ≤ P ≤ PULSE_MAX`, store and write the
pulse; otherwise do nothing. -/
def parseServoCommand (cmd : List Char) (s : ArmState) : ArmState :=
  match (List.findIdx? (fun c => c = '-') cmd) with
  | none => s
  | some dashIndex =>
      let sNum : ℤ := toIntM (substringM cmd 1 dashIndex)
      let pulse : ℤ := toIntM (cmd.drop (dashIndex + 1))
      if h : 1 ≤ sNum ∧ sNum ≤ 4 ∧ PULSE_MIN ≤ pulse ∧ pulse ≤ PULSE_MAX then
        { currentPulses := Function.update s.currentPulses ⟨(sNum - 1).toNat, by omega⟩ pulse
          writes := s.writes ++ [(⟨(sNum - 1).toNat, by omega⟩, pulse)] }
      else s

/-- One `loop` iteration on one received line: trim and lowercase, then
dispatch on `set` or a leading `s`; anything else is ignored. -/
def processLine (s : ArmState) (line : String) : ArmState :=
  let input := strToLower (strTrim line.data)
  if input = ("set").data then setAllNeutral s
  else if input.head? = some 's' then parseServoCommand input s
  else s

/-- The controller run over a whole input session, starting from `setup`. -/
def runLines (lines : List String) : ArmState :=
  lines.foldl processLine setupState

/-- Every stored pulse and every written pulse lies in the clamped range. -/
def pulsesClamped (s : ArmState) : Prop :=
  (∀ i, PULSE_MIN ≤ s.currentPulses i ∧ s.currentPulses i ≤ PULSE_MAX)
    ∧ ∀ w ∈ s.writes, PULSE_MIN ≤ w.2 ∧ w.2 ≤ PULSE_MAX

theorem neutralPulses_clamped :
    ∀ i, PULSE_MIN ≤ neutralPulses i ∧ neutralPulses i ≤ PULSE_MAX := by decide

theorem pulsesClamped_setup : pulsesClamped setupState := by
  refine ⟨?_, ?_⟩ <;> decide

theorem pulsesClamped_setAll (s : ArmState) (hs : pulsesClamped s) :
    pulsesClamped (setAllNeutral s) := by
  refine ⟨?_, ?_⟩
  · exact neutralPulses_clamped
  · intro w hw
    rcases List.mem_append.mp hw with h1 | h2
    · exact hs.2 w h1
    · simp only [List.mem_map, List.mem_finRange, true_and] at h2
      obtain ⟨i, rfl⟩ := h2
      exact neutralPulses_clamped i

theorem pulsesClamped_parseServo (cmd : List Char) (s : ArmState)
    (hs : pulsesClamped s) : pulsesClamped (parseServoCommand cmd s) := by
  unfold parseServoCommand
  split
  · exact hs
  · dsimp only
    split
    · next hcond =>
        refine ⟨?_, ?_⟩
        · intro i
          dsimp only
          rw [Function.update_apply]
          split
          · exact ⟨hcond.2.2.1, hcond.2.2.2⟩
          · exact hs.1 i
        · intro w hw
          dsimp only at hw
          rcases List.mem_append.mp hw with h1 | h2
          · exact hs.2 w h1
          · rcases List.mem_singleton.mp h2 with rfl
            exact ⟨hcond.2.2.1, hcond.2.2.2⟩
    · exact hs

theorem pulsesClamped_processLine (s : ArmState) (line : String)
    (hs : pulsesClamped s) : pulsesClamped (processLine s line) := by
  simp only [processLine]
  split
  · exact pulsesClamped_setAll s hs
  · split
    · exact pulsesClamped_parseServo _ s hs
    · exact hs

/-- C4: after every possible sequence of input command lines, every stored
`currentPulses` entry lies in `[PULSE_MIN, PULSE_MAX]` and so does every
pulse ever passed to a servo write. -/
theorem pulses_always_clamped (lines : List String) :
    (∀ i, PULSE_MIN ≤ (runLines lines).currentPulses i
        ∧ (runLines lines).currentPulses i ≤ PULSE_MAX)
      ∧ ∀ w ∈ (runLines lines).writes, PULSE_MIN ≤ w.2 ∧ w.2 ≤ PULSE_MAX := by
  have main : ∀ (ls : List String) (s : ArmState), pulsesClamped s →
      pulsesClamped (ls.foldl processLine s) := by
    intro ls
    induction ls with
    | nil => exact fun s hs => hs
    | cons l t ih => exact fun s hs => ih _ (pulsesClamped_processLine s l hs)
  exact main lines setupState pulsesClamped_setup

/-- A servo command the firmware's guard rejects: no `-` delimiter, or a
joint number outside 1..4, or a pulse outside the clamped range. -/
def servoCmdRejected (t : List Char) : Bool :=
  match (List.findIdx? (fun c => c = '-') t) with
  | none => true
  | some dashIndex =>
      let sNum : ℤ := toIntM (substringM t 1 dashIndex)
      let pulse : ℤ := toIntM (t.drop (dashIndex + 1))
      decide (sNum < 1 ∨ 4 < sNum ∨ pulse < PULSE_MIN ∨ PULSE_MAX < pulse)

/-- A line the interpreter ignores: not `set`, and either not a servo
command at all (unrecognized) or a rejected servo command. -/
def lineRejected (line : String) : Bool :=
  let t := strToLower (strTrim line.data)
  decide (t ≠ ("set").data) && (decide (t.head? ≠ some 's') || servoCmdRejected t)

theorem parseServo_rejected (cmd : List Char) (s : ArmState)
    (h : servoCmdRejected cmd = true) : parseServoCommand cmd s = s := by
  unfold parseServoCommand
  unfold servoCmdRejected at h
  split
  · rfl
  · next d hd =>
      rw [hd] at h
      simp only [decide_eq_true_eq] at h
      rw [dif_neg (by omega)]

/-- C6: a malformed or out-of-range command line leaves the whole state
(stored pulses and write trace) exactly unchanged, and processing the rest
of the session proceeds exactly as if the bad line had never arrived. -/
theorem rejected_line_no_effect (line : String) (s : ArmState) (rest : List String)
    (h : lineRejected line = true) :
    processLine s line = s
      ∧ (line :: rest).foldl processLine s = rest.foldl processLine s := by
  simp only [lineRejected, Bool.and_eq_true, Bool.or_eq_true, decide_eq_true_eq] at h
  have h1 : processLine s line = s := by
    simp only [processLine]
    rw [if_neg h.1]
    rcases h.2 with h2 | h2
    · rw [if_neg h2]
    · by_cases hh : (strToLower (strTrim line.data)).head? = some 's'
      · rw [if_pos hh]
        exact parseServo_rejected _ s h2
      · rw [if_neg hh]
  exact ⟨h1, by rw [List.foldl_cons, h1]⟩

/-- Witness for C6: the out-of-range line `s9-1500` (joint 9 of 4) changes
nothing, from the setup state, and the following `set` behaves as if the
bad line never arrived. -/
theorem rejected_line_no_effect_witness :
    processLine setupState "s9-1500" = setupState
      ∧ (("s9-1500") :: ["set"]).foldl processLine setupState
          = (["set"]).foldl processLine setupState :=
  rejected_line_no_effect "s9-1500" setupState ["set"] (by decide)

/-! ## Dual-arm 5-servo magnet firmware -/

def PIN_MAGNET_1 : ℕ := 19
def PIN_MAGNET_2 : ℕ := 16

/-- Relay logic is active LOW: writing `LOW` (0) engages a magnet. -/
def MAGNET_ON : ℕ := 0

/-- Writing `HIGH` (1) releases a magnet. -/
def MAGNET_OFF : ℕ := 1

/-- State of the dual-arm firmware: the traces of servo pulse writes and of
`digitalWrite` pin writes (this firmware stores no pulse array). -/
structure DualState where
  servoWrites : List (Fin 5 × ℤ)
  pinWrites : List (ℕ × ℕ)

/-- `parseServoCommand` of the dual-arm firmware: nested guards; a write
happens only when the joint number (1..5) and then the pulse are both in
range. -/
def parseServoCommandD (cmd : List Char) (d : DualState) : DualState :=
  match (List.findIdx? (fun c => c = '-') cmd) with
  | none => d
  | some dashIndex =>
      let sNum : ℤ := toIntM (substringM cmd 1 dashIndex)
      let pulse : ℤ := toIntM (cmd.drop (dashIndex + 1))
      if h : 1 ≤ sNum ∧ sNum ≤ 5 then
        if PULSE_MIN ≤ pulse ∧ pulse ≤ PULSE_MAX then
          { d with servoWrites := d.servoWrites ++ [(⟨(sNum - 1).toNat, by omega⟩, pulse)] }
        else d
      else d

/-- The magnet dispatch of `parseMagnetCommand` after the dash split: the
sequential pin assignment with the -1 sentinel, then, when a pin was
selected, a single `digitalWrite` of the level `state == 1` maps to. -/
def applyMagnet (mNum state : ℤ) (d : DualState) : DualState :=
  let pin : ℤ := -1
  let pin := if mNum = 1 then (PIN_MAGNET_1 : ℤ) else pin
  let pin := if mNum = 2 then (PIN_MAGNET_2 : ℤ) else pin
  if pin ≠ -1 then
    let logicLevel := if state = 1 then MAGNET_ON else MAGNET_OFF
    { d with pinWrites := d.pinWrites ++ [(pin.toNat, logicLevel)] }
  else d

/-- `parseMagnetCommand` of the dual-arm firmware. -/
def parseMagnetCommand (cmd : List Char) (d : DualState) : DualState :=
  match (List.findIdx? (fun c => c = '-') cmd) with
  | none => d
  | some dashIndex =>
      applyMagnet (toIntM (substringM cmd 1 dashIndex))
        (toIntM (cmd.drop (dashIndex + 1))) d

/-- One `loop` iteration of the dual-arm firmware. -/
def processDualLine (d : DualState) (line : String) : DualState :=
  let input := strToLower (strTrim line.data)
  if input = ("set").data then
    { d with servoWrites := d.servoWrites ++ ((List.finRange 5).map fun i => (i, NEUTRAL)) }
  else if input.head? = some 's' then parseServoCommandD input d
  else if input.head? = some 'm' then parseMagnetCommand input d
  else d

/-- The dual-arm firmware state at the start of the loop phase. -/
def dualInit : DualState := { servoWrites := [], pinWrites := [] }

/-- C5: from every prior controller state, processing the `set` line drives
every joint to its calibrated neutral: the trimmed firmware stores and
writes `NEUTRAL + TRIMS[i]` for every joint, and the dual-arm firmware
(which has no trims, so every trim is zero) writes the plain neutral 1500
to each of its five servos. -/
theorem set_command_drives_neutral (s : ArmState) (d : DualState) :
    (∀ i, (processLine s "set").currentPulses i = NEUTRAL + TRIMS i)
      ∧ (processLine s "set").writes
          = s.writes ++ ((List.finRange 4).map fun i => (i, NEUTRAL + TRIMS i))
      ∧ (processDualLine d "set").servoWrites
          = d.servoWrites ++ ((List.finRange 5).map fun i => (i, NEUTRAL)) :=
  ⟨fun _ => rfl, rfl, rfl⟩

/-- C8 (amended): for every parsed magnet command `m<N>-<S>`: when `N` is 1
or 2 the selected magnet's pin receives exactly one write — the engaged
level when `S` is 1 and the released level for any other `S` (including 0) —
and when `N` names no magnet, or the `-` delimiter is missing, no pin write
occurs. -/
theorem magnet_command_behavior (d : DualState) (mNum state : ℤ) :
    (applyMagnet mNum state d).pinWrites
        = d.pinWrites ++
            (if mNum = 1 then
              [(PIN_MAGNET_1, if state = 1 then MAGNET_ON else MAGNET_OFF)]
             else if mNum = 2 then
              [(PIN_MAGNET_2, if state = 1 then MAGNET_ON else MAGNET_OFF)]
             else [])
      ∧ ∀ cmd : List Char, List.findIdx? (fun c => c = '-') cmd = none →
          parseMagnetCommand cmd d = d := by
  constructor
  · unfold applyMagnet
    by_cases h1 : mNum = 1
    · subst h1
      norm_num [PIN_MAGNET_1, PIN_MAGNET_2] <;> decide
    · by_cases h2 : mNum = 2
      · subst h2
        norm_num [PIN_MAGNET_1, PIN_MAGNET_2] <;> decide
      · simp [if_neg h1, if_neg h2]
  · intro cmd hc
    unfold parseMagnetCommand
    rw [hc]

/-- C8 counterexample: the command line `m1-2`, whose state value 2 is
outside the documented 0/1 range, is NOT rejected before the actuator
write: it writes the released level to magnet 1's pin. -/
theorem magnet_command_counterexample :
    (processDualLine dualInit "m1-2").pinWrites = [(PIN_MAGNET_1, MAGNET_OFF)]
      ∧ (processDualLine dualInit "m1-2").pinWrites ≠ dualInit.pinWrites := by
  refine ⟨by decide, by decide⟩

/-! ## Standalone dual-magnet controller -/

def pinMagnetTop : ℕ := 23
def pinMagnetSide : ℕ := 22
def LOW : ℕ := 0
def HIGH : ℕ := 1

/-- State of the standalone magnet controller: the level last written on
each relay pin and the trace of `digitalWrite` calls (pin, level) in
program order. -/
structure MagnetsState where
  top : ℕ
  side : ℕ
  writes : List (ℕ × ℕ)

/-- A `digitalWrite` on the top-magnet pin. -/
def writeTop (s : MagnetsState) (level : ℕ) : MagnetsState :=
  { s with top := level, writes := s.writes ++ [(pinMagnetTop, level)] }

/-- A `digitalWrite` on the side-magnet pin. -/
def writeSide (s : MagnetsState) (level : ℕ) : MagnetsState :=
  { s with side := level, writes := s.writes ++ [(pinMagnetSide, level)] }

/-- The state `setup` leaves: both magnet pins written OFF (HIGH). -/
def magnetsSetup : MagnetsState :=
  writeSide (writeTop { top := HIGH, side := HIGH, writes := [] } HIGH) HIGH

/-- One `loop` iteration of the standalone magnet controller (its input is
trimmed but not lowercased); the global `off` releases the side magnet
first, then the top magnet. -/
def processMagnetsLine (s : MagnetsState) (line : String) : MagnetsState :=
  let command := strTrim line.data
  if command = ("a on").data then writeTop s LOW
  else if command = ("a off").data then writeTop s HIGH
  else if command = ("b on").data then writeSide s LOW
  else if command = ("b off").data then writeSide s HIGH
  else if command = ("on").data then writeSide (writeTop s LOW) LOW
  else if command = ("off").data then writeTop (writeSide s HIGH) HIGH
  else s

/-- C10: whenever the global `off` line is processed with both magnets
engaged, the appended pin writes release the side magnet strictly before
the top magnet, so the top magnet is never released while the side magnet
is still engaged during this command. -/
theorem off_releases_side_before_top (s : MagnetsState)
    (h : s.top = LOW ∧ s.side = LOW) :
    (processMagnetsLine s "off").writes
        = s.writes ++ [(pinMagnetSide, HIGH), (pinMagnetTop, HIGH)]
      ∧ (processMagnetsLine s "off").top = HIGH
      ∧ (processMagnetsLine s "off").side = HIGH := by
  refine ⟨?_, rfl, rfl⟩
  show (writeTop (writeSide s HIGH) HIGH).writes = _
  simp [writeTop, writeSide]

/-- The state after `setup` followed by the global `on`: both engaged. -/
def magnetsBothOn : MagnetsState := processMagnetsLine magnetsSetup "on"

/-- Witness for C10 from the state with both magnets engaged. -/
theorem off_releases_side_before_top_witness :
    (processMagnetsLine magnetsBothOn "off").writes
        = magnetsBothOn.writes ++ [(pinMagnetSide, HIGH), (pinMagnetTop, HIGH)]
      ∧ (processMagnetsLine magnetsBothOn "off").top = HIGH
      ∧ (processMagnetsLine magnetsBothOn "off").side = HIGH :=
  off_releases_side_before_top magnetsBothOn (by decide)

/-! ## Player / Safety Verifier, modelled from the spec -/

/-- Modelled from the spec: the safety verifier's report, listing each
joint whose live pulse deviates from the sequence's first pose by more
than the tolerance, with the deviation ("report which joint(s) violated
tolerance and by how much", spec 4.5). The Python controller implementing
the Player/Safety Verifier is not among the staged source files. -/
def toleranceViolations (n : ℕ) (tol : ℤ) (live first : Fin n → ℤ) :
    List (Fin n × ℤ) :=
  (List.finRange n).filterMap fun j =>
    if tol < |live j - first j| then some (j, |live j - first j|) else none

/-- Modelled from the spec: playback of a stored sequence (spec 4.5).
The live pose is compared joint-wise against the sequence's first pose;
on pass the poses are streamed to the actuators in recorded order (each an
atomic multi-joint write) and the live pose ends at the sequence's last
pose; on fail playback aborts before any actuator write, the live pose is
unchanged and the violations are reported. Returns
(actuator pose writes, final live pose, reported violations). -/
def playSequence (n : ℕ) (tol : ℤ) (live : Fin n → ℤ)
    (seq : List (Fin n → ℤ)) :
    List (Fin n → ℤ) × (Fin n → ℤ) × List (Fin n × ℤ) :=
  match seq with
  | [] => ([], live, [])
  | first :: rest =>
      if toleranceViolations n tol live first = [] then
        (first :: rest, (first :: rest).getLast (List.cons_ne_nil first rest), [])
      else ([], live, toleranceViolations n tol live first)

/-- C2: if some joint's live pulse differs from the stored sequence's first
pose by more than the tolerance, playback performs zero actuator writes,
leaves the live pose unchanged, and reports exactly the violating joints
with their absolute deviations. -/
theorem playback_aborts_on_mismatch (n : ℕ) (tol : ℤ) (live first : Fin n → ℤ)
    (rest : List (Fin n → ℤ)) (h : ∃ j, tol < |live j - first j|) :
    (playSequence n tol live (first :: rest)).1 = []
      ∧ (playSequence n tol live (first :: rest)).2.1 = live
      ∧ (playSequence n tol live (first :: rest)).2.2
          = toleranceViolations n tol live first
      ∧ ∀ j, (j, |live j - first j|) ∈ toleranceViolations n tol live first
          ↔ tol < |live j - first j| := by
  obtain ⟨j0, hj0⟩ := h
  have hchar : ∀ j, (j, |live j - first j|) ∈ toleranceViolations n tol live first
      ↔ tol < |live j - first j| := by
    intro j
    constructor
    · intro hmem
      simp only [toleranceViolations, List.mem_filterMap, List.mem_finRange, true_and,
        Option.ite_none_right_eq_some, Option.some.injEq, Prod.mk.injEq] at hmem
      obtain ⟨j2, hlt, hj, hd⟩ := hmem
      subst hj
      exact hlt
    · intro hc
      simp only [toleranceViolations, List.mem_filterMap, List.mem_finRange, true_and]
      exact ⟨j, by rw [if_pos hc]⟩
  have hne : toleranceViolations n tol live first ≠ [] := by
    intro hemp
    have hm := (hchar j0).mpr hj0
    rw [hemp] at hm
    exact absurd hm (List.not_mem_nil _)
  refine ⟨?_, ?_, ?_, hchar⟩ <;>
    · simp only [playSequence]
      rw [if_neg hne]

/-- The live pose of the C2 witness. -/
def liveW : Fin 4 → ℤ := ![1500, 1500, 1500, 1500]

/-- A stored first pose deviating by 100 on joint 1. -/
def firstW : Fin 4 → ℤ := ![1600, 1500, 1500, 1500]

/-- Witness for C2 at tolerance 20 with a 100-unit deviation on joint 1. -/
theorem playback_aborts_on_mismatch_witness :
    (playSequence 4 20 liveW [firstW]).1 = []
      ∧ (playSequence 4 20 liveW [firstW]).2.1 = liveW
      ∧ (playSequence 4 20 liveW [firstW]).2.2 = toleranceViolations 4 20 liveW firstW
      ∧ ∀ j, (j, |liveW j - firstW j|) ∈ toleranceViolations 4 20 liveW firstW
          ↔ 20 < |liveW j - firstW j| :=
  playback_aborts_on_mismatch 4 20 liveW firstW [] (by decide)
